import Mathlib

/-
Verification of the widdler Cromwell client (src/Cromwell.py) against its
natural-language specification.  The Python code is shallowly embedded:
strings are Lean `String`, ordered dicts are association lists, the file
system is an explicit function argument, and HTTP transport is out of
scope.  The code predates Python 3, so `filter`/`map` are modelled as
eager list operations and list slicing as `List.take`.
-/

-- ### Python string primitives used by Cromwell.py

-- Python `str.isspace` characters relevant to `str.rstrip()`.
def pyIsSpace (c : Char) : Bool :=
  c == ' ' || c == '\t' || c == '\n' || c == '\r' || c == '\x0b' || c == '\x0c'

-- Python `str.rstrip()`: drop trailing whitespace.
def pyRstrip (s : String) : String :=
  ⟨(s.data.reverse.dropWhile pyIsSpace).reverse⟩

-- Uppercase hexadecimal digit, as produced by urllib percent-encoding.
def hexDigit (n : Nat) : Char :=
  if n < 10 then Char.ofNat (48 + n) else Char.ofNat (55 + n)

-- One character of `requests.utils.quote` (urllib.quote, safe chars being
-- letters, digits, underscore, dot, dash and the default safe '/').
def quoteChar (c : Char) : List Char :=
  if c.isAlpha || c.isDigit || c == '_' || c == '.' || c == '-' || c == '/' then
    [c]
  else
    ['%', hexDigit (c.toNat / 16 % 16), hexDigit (c.toNat % 16)]

def quoteList (s : List Char) : List Char :=
  s.flatMap quoteChar

-- `requests.utils.quote` on ASCII input.
def quote (s : String) : String :=
  ⟨quoteList s.data⟩

-- Python `str.replace(old, new)`: leftmost, non-overlapping, replace all.
def pyReplaceAux (p : Char) (ps repl : List Char) : List Char → List Char
  | [] => []
  | c :: cs =>
    if c = p ∧ ps <+: cs then
      repl ++ pyReplaceAux p ps repl (cs.drop ps.length)
    else
      c :: pyReplaceAux p ps repl cs
  termination_by l => l.length
  decreasing_by
    · simp only [List.length_drop, List.length_cons]; omega
    · simp only [List.length_cons]; omega

-- Number of (leftmost, non-overlapping) pattern occurrences replaced.
def pyCountAux (p : Char) (ps : List Char) : List Char → Nat
  | [] => 0
  | c :: cs =>
    if c = p ∧ ps <+: cs then
      1 + pyCountAux p ps (cs.drop ps.length)
    else
      pyCountAux p ps cs
  termination_by l => l.length
  decreasing_by
    · simp only [List.length_drop, List.length_cons]; omega
    · simp only [List.length_cons]; omega

-- Python `s.replace(old, new)` (the empty pattern interleaves `new`,
-- matching CPython; the code only ever replaces the pattern "%20").
def pyStrReplace (s old new : String) : String :=
  match old.data with
  | [] => ⟨new.data ++ s.data.flatMap (fun c => c :: new.data)⟩
  | p :: ps => ⟨pyReplaceAux p ps new.data s.data⟩

def pyCountStr (pat s : String) : Nat :=
  match pat.data with
  | [] => 0
  | p :: ps => pyCountAux p ps s.data

-- Python `str(n)` for a non-negative integer.
def pyNatStr (n : Nat) : List Char :=
  if n = 0 then ['0'] else ((Nat.digits 10 n).map Nat.digitChar).reverse

def natRepr (n : Nat) : String :=
  ⟨pyNatStr n⟩

-- ### Python datetime rendering (datetime.__str__, microsecond = 0)

def padZeros (w : Nat) (cs : List Char) : List Char :=
  List.replicate (w - cs.length) '0' ++ cs

def pad2 (n : Nat) : List Char :=
  padZeros 2 (pyNatStr n)

def pad4 (n : Nat) : List Char :=
  padZeros 4 (pyNatStr n)

structure PyDatetime where
  year : Nat
  month : Nat
  day : Nat
  hour : Nat
  minute : Nat
  second : Nat

def dateChars (d : PyDatetime) : List Char :=
  pad4 d.year ++ ['-'] ++ pad2 d.month ++ ['-'] ++ pad2 d.day

def timeChars (d : PyDatetime) : List Char :=
  pad2 d.hour ++ [':'] ++ pad2 d.minute ++ [':'] ++ pad2 d.second

def dateStr (d : PyDatetime) : String :=
  ⟨dateChars d⟩

def timeStr (d : PyDatetime) : String :=
  ⟨timeChars d⟩

-- `str(value)` for a datetime.datetime: "YYYY-MM-DD HH:MM:SS".
def pyDatetimeStr (d : PyDatetime) : String :=
  ⟨dateChars d ++ [' '] ++ timeChars d⟩

-- ### build_query_url (src/Cromwell.py lines 276-299)

-- A query-dict value: scalar (already rendered by Python str()), list of
-- rendered scalars, or a datetime.datetime.
inductive QueryValue where
  | scalar (s : String)
  | list (items : List String)
  | timestamp (d : PyDatetime)

-- One iteration of the `for key, value in url_dict.items()` loop; the
-- Bool component is the `first` flag.
def buildQueryStep (sep : String) (acc : String × Bool) (kv : String × QueryValue) : String × Bool :=
  let url_string := if acc.2 = false then acc.1 ++ "&" else acc.1
  match kv.2 with
  | QueryValue.timestamp d =>
    let dt := quote (pyDatetimeStr d) ++ "Z"
    let value := pyStrReplace dt "%20" "T"
    (url_string ++ kv.1 ++ sep ++ value, false)
  | QueryValue.list items =>
    (items.foldl (fun u item => u ++ kv.1 ++ sep ++ item) url_string, false)
  | QueryValue.scalar value =>
    (url_string ++ kv.1 ++ sep ++ value, false)

-- Cromwell.build_query_url; the Python default separator is "=".
def build_query_url (base_url : String) (url_dict : List (String × QueryValue)) (sep : String) : String :=
  pyRstrip base_url ++ (url_dict.foldl (buildQueryStep sep) ("", true)).1

-- ### getCalls (src/Cromwell.py lines 77-100)

structure CallAttempt where
  executionStatus : String
  stdout : String
  stderr : String
deriving DecidableEq

-- One of the two per-stream dicts built by parse_logs: 'name' always
-- holds the raw path, 'log' is present only in full-log mode and then
-- holds either the file text or the caught IOError.
structure StreamLog where
  name : String
  log : Option (Except String String)

structure CallLog where
  stdout : StreamLog
  stderr : StreamLog

-- Default record standing in for the IndexError the Python code would
-- raise on `c[0]` for an empty attempt list; theorems about getCalls
-- assume every attempt list is non-empty.
def dummyAttempt : CallAttempt :=
  ⟨"", "", ""⟩

-- getCalls.parse_logs.  The second component records the file paths the
-- Python code opens, making the I/O of the embedding observable.
def parse_logs (readFile : String → Except String String) (full_logs : Bool)
    (call : CallAttempt) : CallLog × List String :=
  if full_logs then
    ({ stdout := { name := call.stdout, log := some (readFile call.stdout) },
       stderr := { name := call.stderr, log := some (readFile call.stderr) } },
     [call.stdout, call.stderr])
  else
    ({ stdout := { name := call.stdout, log := none },
       stderr := { name := call.stderr, log := none } }, [])

-- The body of Cromwell.getCalls (Python 2: filter/map are eager lists,
-- `filteredCalls[:limit_n]` is List.take).
def getCallsAux (readFile : String → Except String String) (status : String)
    (call_arr : List (List CallAttempt)) (full_logs : Bool) (limit_n : Nat) :
    List (CallLog × List String) :=
  let filteredCalls := call_arr.filter fun c => (c.headD dummyAttempt).executionStatus == status
  let firstAttempts := filteredCalls.map fun c => c.headD dummyAttempt
  (firstAttempts.take limit_n).map (parse_logs readFile full_logs)

-- Cromwell.getCalls: the list of per-call log summaries.
def getCalls (readFile : String → Except String String) (status : String)
    (call_arr : List (List CallAttempt)) (full_logs : Bool) (limit_n : Nat) :
    List CallLog :=
  (getCallsAux readFile status call_arr full_logs limit_n).map Prod.fst

-- Every file path getCalls opens, in order.
def getCallsReads (readFile : String → Except String String) (status : String)
    (call_arr : List (List CallAttempt)) (full_logs : Bool) (limit_n : Nat) :
    List String :=
  (getCallsAux readFile status call_arr full_logs limit_n).flatMap Prod.snd

-- The first attempt records of the matching calls, truncated to the
-- limit: exactly the records parse_logs runs on.
def selectedAttempts (status : String) (call_arr : List (List CallAttempt))
    (limit_n : Nat) : List CallAttempt :=
  (((call_arr.filter fun c => (c.headD dummyAttempt).executionStatus == status).map
    fun c => c.headD dummyAttempt).take limit_n)

-- Matching rule as the spec words it: only the attempt at index 0 counts.
def firstAttemptMatches (status : String) (c : List CallAttempt) : Bool :=
  match c with
  | [] => false
  | a :: _ => a.executionStatus == status

-- ### explain_workflow (src/Cromwell.py lines 102-125)

-- The fields of the workflow metadata document that explain_workflow
-- reads; `inputs` is kept as an uninterpreted JSON blob.
structure Metadata where
  status : String
  id : String
  workflowRoot : String
  calls : List (String × List CallAttempt)
  inputs : String

-- The `explain_res` dict: a key is `none` when never assigned.
structure ExplainRes where
  status : Option String
  id : Option String
  workflowRoot : Option String
  running_jobs : Option (List CallLog)

-- The `additional_res` dict.
structure AdditionalRes where
  inputs : Option String

-- The `stdout_res` dict.
structure StdoutRes where
  failed_jobs : Option (List CallLog)

def emptyExplainRes : ExplainRes :=
  { status := none, id := none, workflowRoot := none, running_jobs := none }

def emptyAdditionalRes : AdditionalRes :=
  { inputs := none }

def emptyStdoutRes : StdoutRes :=
  { failed_jobs := none }

-- Cromwell.explain_workflow with the upstream metadata fetch replaced by
-- an explicit `Option Metadata` argument and the `print` call modelled as
-- the final list of emitted messages.
def explain_workflow (readFile : String → Except String String)
    (result : Option Metadata) (include_inputs : Bool) :
    (ExplainRes × AdditionalRes × StdoutRes) × List String :=
  match result with
  | some r =>
    let explain_res : ExplainRes :=
      { status := some r.status, id := some r.id,
        workflowRoot := some r.workflowRoot, running_jobs := none }
    let branch : ExplainRes × StdoutRes :=
      if r.status = "Failed" then
        (explain_res,
         { failed_jobs :=
             some (getCalls readFile "RetryableFailure" (r.calls.map Prod.snd) true 3) })
      else if r.status = "Running" then
        ({ explain_res with
           running_jobs :=
             some (getCalls readFile "Running" (r.calls.map Prod.snd) false 3) },
         emptyStdoutRes)
      else
        (explain_res, emptyStdoutRes)
    let additional_res : AdditionalRes :=
      if include_inputs then { inputs := some r.inputs } else emptyAdditionalRes
    ((branch.1, additional_res, branch.2), [])
  | none =>
    ((emptyExplainRes, emptyAdditionalRes, emptyStdoutRes), ["Workflow not found."])

-- ### jstart_workflow inputs payload (src/Cromwell.py lines 164-171)

-- `json.dumps` for a flat string-valued JSON object.
def json_dumps (args : List (String × String)) : String :=
  "\x7b" ++
    String.intercalate ", "
      (args.map fun kv => "\"" ++ kv.1 ++ "\": \"" ++ kv.2 ++ "\"") ++
  "\x7d"

-- Python dict assignment `args[k] = v`: overwrite in place or append.
def dictSet (args : List (String × String)) (k v : String) : List (String × String) :=
  if args.any fun p => p.1 == k then
    args.map fun p => if p.1 == k then (p.1, v) else p
  else
    args ++ [(k, v)]

-- Python `str.startswith`.
def pyStartsWith (s pre : String) : Bool :=
  decide (pre.data <+: s.data)

-- The `j_args` string jstart_workflow builds for the workflowInputs
-- multipart part; `loadJson` stands for json.load of the named file and
-- `user` for getpass.getuser().
def jstart_workflow_inputs (loadJson : String → List (String × String))
    (user : String) (json_file : String) : String :=
  if ¬ pyStartsWith json_file "\x7b" then
    json_dumps (dictSet (loadJson json_file) "user" user)
  else
    json_file

-- Whether a serialized JSON payload mentions the given key.
def hasField (payload key : String) : Bool :=
  decide (("\"" ++ key ++ "\"").data <:+: payload.data)

-- ### Cromwell.__init__ (src/Cromwell.py lines 21-28)

structure CromwellClient where
  port : Nat
  url : String

def cromwell_init (host : String) (port : Nat) : CromwellClient :=
  let p := if host = "localhost" then 8000 else port
  { port := p,
    url := "http://" ++ host ++ ":" ++ natRepr p ++ "/api/workflows/v1" }

-- ### Concrete inputs used by witness theorems

-- A file system on which every read fails.
def failFS : String → Except String String :=
  fun _ => Except.error "ENOENT"

-- Two calls: the first has a non-matching first attempt but a matching
-- retry, the second matches on its first attempt.
def callArrC : List (List CallAttempt) :=
  [[⟨"Done", "a.out", "a.err"⟩, ⟨"Running", "a2.out", "a2.err"⟩],
   [⟨"Running", "b.out", "b.err"⟩]]

def callC : CallAttempt :=
  ⟨"Done", "missing.out", "missing.err"⟩

-- ### Spec-side helper shapes used in theorem statements

-- "key1=val1&key2=val2&...": no leading and no trailing ampersand.
def ampJoin : List String → String
  | [] => ""
  | [x] => x
  | x :: y :: rest => x ++ "&" ++ ampJoin (y :: rest)

-- The tail pairs, each preceded by one ampersand.
def ampTail : List String → String
  | [] => ""
  | x :: rest => "&" ++ x ++ ampTail rest

-- Percent-encoded output whose every '%' starts an "%3A" triple: the
-- shape of `quote` on digit/colon input.  Such a list contains no "%20".
inductive SafeBlocks : List Char → Prop where
  | nil : SafeBlocks []
  | chr : ∀ {c : Char} {l : List Char}, c ≠ '%' → SafeBlocks l → SafeBlocks (c :: l)
  | colon : ∀ {l : List Char}, SafeBlocks l → SafeBlocks ('%' :: '3' :: 'A' :: l)

-- ### General lemmas

theorem strData_inj {a b : String} (h : a.data = b.data) : a = b := by
  cases a; cases b; exact congrArg String.mk h

theorem getCallsAux_eq (readFile : String → Except String String) (status : String)
    (call_arr : List (List CallAttempt)) (full_logs : Bool) (limit_n : Nat) :
    getCallsAux readFile status call_arr full_logs limit_n =
      (selectedAttempts status call_arr limit_n).map (parse_logs readFile full_logs) := rfl

-- ### Claim theorems

/-- Claim C1 (code_bug evidence): on the parameter mapping
`[("label", ["a", "b"])]` the builder emits the glued string
"label=alabel=b": the per-element pairs of a list value are not separated
by ampersands, contrary to the specified "label=a&label=b". -/
theorem build_query_url_list_unseparated :
    build_query_url "" [("label", QueryValue.list ["a", "b"])] "=" = "label=alabel=b" ∧
    ("label=alabel=b" : String) ≠ "label=a&label=b" :=
  ⟨rfl, by decide⟩

/-- Claim C7: when the metadata document is absent, explain_workflow
returns the empty headline/extra/logs triple together with the
"Workflow not found." message, and (being a total function) never
throws. -/
theorem explain_workflow_not_found (readFile : String → Except String String)
    (include_inputs : Bool) :
    explain_workflow readFile none include_inputs =
      ((emptyExplainRes, emptyAdditionalRes, emptyStdoutRes), ["Workflow not found."]) := rfl

/-- Claim C10: construction with host "localhost" forces port 8000
regardless of the supplied port; any other host keeps the supplied port;
and the base URL is always http://host:port/api/workflows/v1 built from
the resulting port. -/
theorem cromwell_init_spec (host : String) (port : Nat) :
    (cromwell_init "localhost" port).port = 8000 ∧
    (host = "localhost" ∨ (cromwell_init host port).port = port) ∧
    (cromwell_init host port).url =
      "http://" ++ host ++ ":" ++ natRepr (cromwell_init host port).port ++
        "/api/workflows/v1" := by
  refine ⟨by simp [cromwell_init], ?_, rfl⟩
  by_cases h : host = "localhost"
  · exact Or.inl h
  · exact Or.inr (by simp [cromwell_init, h])

/-- Claim C8: for a present metadata document, explain_workflow always
copies status, id and workflowRoot into the headline; status "Failed"
populates the failed-jobs list via getCalls with filter
"RetryableFailure", full logs and limit 3; status "Running" populates the
running-jobs list via getCalls with filter "Running", no full logs and
limit 3; any other status populates no job list; and when include_inputs
is true the inputs field is copied verbatim into the extra mapping. -/
theorem explain_workflow_present (readFile : String → Except String String)
    (r : Metadata) (include_inputs : Bool) :
    explain_workflow readFile (some r) include_inputs =
      (({ status := some r.status, id := some r.id,
          workflowRoot := some r.workflowRoot,
          running_jobs :=
            if r.status = "Running" then
              some (getCalls readFile "Running" (r.calls.map Prod.snd) false 3)
            else none },
        { inputs := if include_inputs then some r.inputs else none },
        { failed_jobs :=
            if r.status = "Failed" then
              some (getCalls readFile "RetryableFailure" (r.calls.map Prod.snd) true 3)
            else none }),
       []) := by
  by_cases hF : r.status = "Failed" <;> by_cases hR : r.status = "Running" <;>
    cases include_inputs <;>
      first
      | (exfalso; rw [hF] at hR; exact absurd hR (by decide))
      | simp [explain_workflow, hF, hR, emptyStdoutRes, emptyAdditionalRes,
              emptyExplainRes]

-- A Python dict always holds the key just assigned.
theorem dictSet_has_key (args : List (String × String)) (k v : String) :
    (dictSet args k v).any (fun p => p.1 == k && p.2 == v) = true := by
  unfold dictSet
  by_cases h : (args.any fun p => p.1 == k) = true
  · rw [if_pos h]
    obtain ⟨p, hp, hpk⟩ := List.any_eq_true.mp h
    refine List.any_eq_true.mpr ⟨(p.1, v), List.mem_map.mpr ⟨p, hp, by simp [hpk]⟩, by simp [hpk]⟩
  · rw [if_neg h]
    simp [List.any_append]

/-- Claim C9 counterexample: with inline JSON inputs "{}" (text starting
with a brace) the payload jstart_workflow sends is the inline text
itself, and it contains no "user" field — refuting the claim that the
user field is injected for inline inputs as well. -/
theorem jstart_inline_inputs_verbatim :
    jstart_workflow_inputs (fun _ => []) "alice" "\x7b\x7d" = "\x7b\x7d" ∧
    hasField "\x7b\x7d" "user" = false :=
  ⟨by decide, by decide⟩

/-- Claim C9 amended: the inputs payload contains an injected user field
when the JSON inputs are given as a file path (text not starting with a
brace); inline JSON text is forwarded verbatim, with no user field
injected. -/
theorem jstart_inputs_user_only_for_file (loadJson : String → List (String × String))
    (user : String) (json_file : String) :
    jstart_workflow_inputs loadJson user json_file =
      (if pyStartsWith json_file "\x7b" then json_file
       else json_dumps (dictSet (loadJson json_file) "user" user)) ∧
    (dictSet (loadJson json_file) "user" user).any
      (fun p => p.1 == "user" && p.2 == user) = true := by
  refine ⟨?_, dictSet_has_key _ _ _⟩
  unfold jstart_workflow_inputs
  by_cases h : pyStartsWith json_file "\x7b" = true
  · simp [h]
  · simp [h]

/-- Claim C4: with every attempt list non-empty, getCalls selects a call
exactly when the executionStatus of the first attempt record (index 0)
equals the status filter — the result is the per-call summary of the
calls whose first attempt matches, so a call whose first attempt does not
match is excluded even if a later attempt matches. -/
theorem getCalls_first_attempt_only (readFile : String → Except String String)
    (status : String) (call_arr : List (List CallAttempt)) (full_logs : Bool)
    (limit_n : Nat) (hne : ∀ c ∈ call_arr, c ≠ []) :
    getCalls readFile status call_arr full_logs limit_n =
      ((call_arr.filter (firstAttemptMatches status)).take limit_n).map
        (fun c => (parse_logs readFile full_logs (c.headD dummyAttempt)).1) := by
  unfold getCalls getCallsAux
  have hfilter : (call_arr.filter fun c => (c.headD dummyAttempt).executionStatus == status)
      = call_arr.filter (firstAttemptMatches status) := by
    apply List.filter_congr
    intro c hc
    cases c with
    | nil => exact absurd rfl (hne [] hc)
    | cons a t => rfl
  rw [hfilter]
  simp only [List.map_take, List.map_map, Function.comp_def]

theorem getCalls_first_attempt_only_witness :
    (∀ c ∈ callArrC, c ≠ []) ∧
    getCalls failFS "Running" callArrC false 3 =
      ((callArrC.filter (firstAttemptMatches "Running")).take 3).map
        (fun c => (parse_logs failFS false (c.headD dummyAttempt)).1) :=
  ⟨by decide, getCalls_first_attempt_only failFS "Running" callArrC false 3 (by decide)⟩

/-- Claim C5: getCalls returns at most limit_n summaries — exactly the
minimum of limit_n and the number of matching calls — and every file path
it reads belongs to one of the first limit_n matching first-attempt
records, so no log I/O happens for matching entries beyond the limit. -/
theorem getCalls_limit_bounds_io (readFile : String → Except String String)
    (status : String) (call_arr : List (List CallAttempt)) (full_logs : Bool)
    (limit_n : Nat) :
    (getCalls readFile status call_arr full_logs limit_n).length ≤ limit_n ∧
    (getCalls readFile status call_arr full_logs limit_n).length =
      min limit_n
        (call_arr.filter fun c => (c.headD dummyAttempt).executionStatus == status).length ∧
    (∀ p ∈ getCallsReads readFile status call_arr full_logs limit_n,
      ∃ c ∈ selectedAttempts status call_arr limit_n, p = c.stdout ∨ p = c.stderr) := by
  have hlen : (getCalls readFile status call_arr full_logs limit_n).length =
      min limit_n
        (call_arr.filter fun c => (c.headD dummyAttempt).executionStatus == status).length := by
    unfold getCalls
    rw [List.length_map, getCallsAux_eq, List.length_map]
    unfold selectedAttempts
    rw [List.length_take, List.length_map]
  refine ⟨hlen ▸ min_le_left _ _, hlen, ?_⟩
  intro p hp
  unfold getCallsReads at hp
  rw [getCallsAux_eq] at hp
  obtain ⟨pair, hpair, hpp⟩ := List.mem_flatMap.mp hp
  obtain ⟨c, hc, hparse⟩ := List.mem_map.mp hpair
  refine ⟨c, hc, ?_⟩
  subst hparse
  unfold parse_logs at hpp
  cases full_logs with
  | false => simp at hpp
  | true => simpa using hpp

/-- Claim C6: in full-log mode, when reading the stdout file fails the
error itself is stored in that entry's log field, the sibling name field
keeps the original path, the stderr stream is still processed on its own,
and the failure does not abort the reduction: getCalls yields exactly as
many summaries as it would under a file system on which every read
succeeds. -/
theorem parse_logs_soft_fail (readFile : String → Except String String)
    (call : CallAttempt) (e : String) (status : String)
    (call_arr : List (List CallAttempt)) (limit_n : Nat)
    (h : readFile call.stdout = Except.error e) :
    (parse_logs readFile true call).1.stdout.log = some (Except.error e) ∧
    (parse_logs readFile true call).1.stdout.name = call.stdout ∧
    (parse_logs readFile true call).1.stderr.name = call.stderr ∧
    (parse_logs readFile true call).1.stderr.log = some (readFile call.stderr) ∧
    (getCalls readFile status call_arr true limit_n).length =
      (getCalls (fun _ => Except.ok "") status call_arr true limit_n).length := by
  refine ⟨by simp [parse_logs, h], rfl, rfl, rfl, ?_⟩
  unfold getCalls
  rw [List.length_map, List.length_map, getCallsAux_eq, getCallsAux_eq,
      List.length_map, List.length_map]

theorem parse_logs_soft_fail_witness :
    failFS callC.stdout = Except.error "ENOENT" ∧
    ((parse_logs failFS true callC).1.stdout.log = some (Except.error "ENOENT") ∧
     (parse_logs failFS true callC).1.stdout.name = callC.stdout ∧
     (parse_logs failFS true callC).1.stderr.name = callC.stderr ∧
     (parse_logs failFS true callC).1.stderr.log = some (failFS callC.stderr) ∧
     (getCalls failFS "Running" callArrC true 3).length =
       (getCalls (fun _ => Except.ok "") "Running" callArrC true 3).length) :=
  ⟨rfl, parse_logs_soft_fail failFS callC "ENOENT" "Running" callArrC 3 rfl⟩

-- Once the first pair is emitted, each further scalar pair adds one
-- leading ampersand.
theorem scalar_foldl (ps : List (String × String)) (s : String) :
    ((ps.map fun kv => (kv.1, QueryValue.scalar kv.2)).foldl (buildQueryStep "=") (s, false)).1
      = s ++ ampTail (ps.map fun kv => kv.1 ++ "=" ++ kv.2) := by
  induction ps generalizing s with
  | nil => simp [ampTail, String.append_empty]
  | cons kv rest ih =>
    simp only [List.map_cons, List.foldl_cons]
    rw [show buildQueryStep "=" (s, false) (kv.1, QueryValue.scalar kv.2)
          = (s ++ "&" ++ kv.1 ++ "=" ++ kv.2, false) from rfl]
    rw [ih]
    show s ++ "&" ++ kv.1 ++ "=" ++ kv.2 ++ ampTail _ = s ++ ampTail _
    rw [show ampTail ((kv.1 ++ "=" ++ kv.2) :: rest.map fun kv => kv.1 ++ "=" ++ kv.2)
          = "&" ++ (kv.1 ++ "=" ++ kv.2) ++ ampTail (rest.map fun kv => kv.1 ++ "=" ++ kv.2)
        from rfl]
    simp [String.append_assoc]

theorem ampJoin_cons (x : String) (xs : List String) :
    ampJoin (x :: xs) = x ++ ampTail xs := by
  induction xs generalizing x with
  | nil => simp [ampJoin, ampTail, String.append_empty]
  | cons y ys ih =>
    rw [show ampJoin (x :: y :: ys) = x ++ "&" ++ ampJoin (y :: ys) from rfl, ih]
    rw [show ampTail (y :: ys) = "&" ++ y ++ ampTail ys from rfl]
    simp [String.append_assoc]

/-- Claim C3: for a parameter mapping holding only scalar values,
build_query_url returns the base URL right-trimmed of trailing
whitespace followed by "key1=val1&key2=val2&..." in insertion order, the
first pair not preceded by an ampersand and with no trailing
ampersand. -/
theorem build_query_url_scalars (base : String) (ps : List (String × String)) :
    build_query_url base (ps.map fun kv => (kv.1, QueryValue.scalar kv.2)) "=" =
      pyRstrip base ++ ampJoin (ps.map fun kv => kv.1 ++ "=" ++ kv.2) := by
  cases ps with
  | nil => simp [build_query_url, ampJoin, String.append_empty]
  | cons kv rest =>
    unfold build_query_url
    simp only [List.map_cons, List.foldl_cons]
    rw [show buildQueryStep "=" ("", true) (kv.1, QueryValue.scalar kv.2)
          = ("" ++ kv.1 ++ "=" ++ kv.2, false) from rfl]
    rw [scalar_foldl, ampJoin_cons]
    simp [String.empty_append, String.append_assoc]

-- ### Lemmas on the percent-encoding and replacement pipeline

theorem pyReplaceAux_safe (repl : List Char) {l : List Char} (h : SafeBlocks l) :
    pyReplaceAux '%' ['2', '0'] repl l = l := by
  induction h with
  | nil => simp [pyReplaceAux]
  | chr hc _ ih =>
    rw [pyReplaceAux, if_neg, ih]
    rintro ⟨h1, -⟩
    exact hc h1
  | colon _ ih =>
    rw [pyReplaceAux, if_neg, pyReplaceAux, if_neg, pyReplaceAux, if_neg, ih]
    · rintro ⟨h1, -⟩; exact absurd h1 (by decide)
    · rintro ⟨h1, -⟩; exact absurd h1 (by decide)
    · rintro ⟨-, h2⟩
      rcases List.cons_prefix_cons.mp h2 with ⟨h23, -⟩
      exact absurd h23 (by decide)

theorem pyReplaceAux_first {a b : List Char} (ps repl : List Char)
    (ha : ∀ c ∈ a, c ≠ '%') :
    pyReplaceAux '%' ps repl (a ++ '%' :: (ps ++ b)) =
      a ++ repl ++ pyReplaceAux '%' ps repl b := by
  induction a with
  | nil =>
    simp only [List.nil_append]
    rw [pyReplaceAux, if_pos ⟨rfl, List.prefix_append ps b⟩, List.drop_left]
  | cons x xs ih =>
    simp only [List.cons_append]
    rw [pyReplaceAux, if_neg, ih (fun c hc => ha c (List.mem_cons_of_mem x hc))]
    simp only [not_and]
    intro h1
    exact absurd h1 (ha x (List.mem_cons_self x xs))

theorem pyCountAux_safe {l : List Char} (h : SafeBlocks l) :
    pyCountAux '%' ['2', '0'] l = 0 := by
  induction h with
  | nil => simp [pyCountAux]
  | chr hc _ ih =>
    rw [pyCountAux, if_neg, ih]
    rintro ⟨h1, -⟩
    exact hc h1
  | colon _ ih =>
    rw [pyCountAux, if_neg, pyCountAux, if_neg, pyCountAux, if_neg, ih]
    · rintro ⟨h1, -⟩; exact absurd h1 (by decide)
    · rintro ⟨h1, -⟩; exact absurd h1 (by decide)
    · rintro ⟨-, h2⟩
      rcases List.cons_prefix_cons.mp h2 with ⟨h23, -⟩
      exact absurd h23 (by decide)

theorem pyCountAux_first {a b : List Char} (ps : List Char)
    (ha : ∀ c ∈ a, c ≠ '%') :
    pyCountAux '%' ps (a ++ '%' :: (ps ++ b)) = 1 + pyCountAux '%' ps b := by
  induction a with
  | nil =>
    simp only [List.nil_append]
    rw [pyCountAux, if_pos ⟨rfl, List.prefix_append ps b⟩, List.drop_left]
  | cons x xs ih =>
    simp only [List.cons_append]
    rw [pyCountAux, if_neg, ih (fun c hc => ha c (List.mem_cons_of_mem x hc))]
    simp only [not_and]
    intro h1
    exact absurd h1 (ha x (List.mem_cons_self x xs))

theorem quoteChar_digit {c : Char} (h : c.isDigit = true) : quoteChar c = [c] := by
  unfold quoteChar
  rw [if_pos]
  simp [h]

theorem quoteChar_dash : quoteChar '-' = ['-'] := by decide

theorem quoteChar_colon : quoteChar ':' = ['%', '3', 'A'] := by decide

theorem quoteChar_space : quoteChar ' ' = ['%', '2', '0'] := by decide

theorem quoteList_id {s : List Char} (h : ∀ c ∈ s, c.isDigit = true ∨ c = '-') :
    quoteList s = s := by
  induction s with
  | nil => rfl
  | cons c cs ih =>
    rw [quoteList, List.flatMap_cons]
    have htail : quoteList cs = cs := ih fun x hx => h x (List.mem_cons_of_mem c hx)
    rcases h c (List.mem_cons_self c cs) with hd | hdash
    · rw [quoteChar_digit hd]
      simpa [quoteList] using htail
    · subst hdash
      rw [quoteChar_dash]
      simpa [quoteList] using htail

theorem no_pct_of_digit_dash {s : List Char} (h : ∀ c ∈ s, c.isDigit = true ∨ c = '-') :
    ∀ c ∈ s, c ≠ '%' := by
  intro c hc
  rcases h c hc with hd | hdash
  · intro he; subst he; simp at hd
  · subst hdash; decide

theorem safeBlocks_quote {s : List Char} (h : ∀ c ∈ s, c.isDigit = true ∨ c = ':') :
    SafeBlocks (quoteList s) := by
  induction s with
  | nil => exact SafeBlocks.nil
  | cons c cs ih =>
    rw [quoteList, List.flatMap_cons]
    have htail : SafeBlocks (quoteList cs) := ih fun x hx => h x (List.mem_cons_of_mem c hx)
    rcases h c (List.mem_cons_self c cs) with hd | hcol
    · rw [quoteChar_digit hd]
      refine SafeBlocks.chr ?_ htail
      intro he; subst he; simp at hd
    · subst hcol
      rw [quoteChar_colon]
      exact SafeBlocks.colon htail

theorem safeBlocks_append_Z {l : List Char} (h : SafeBlocks l) :
    SafeBlocks (l ++ ['Z']) := by
  induction h with
  | nil => exact SafeBlocks.chr (by decide) SafeBlocks.nil
  | chr hc _ ih => exact SafeBlocks.chr hc ih
  | colon _ ih => exact SafeBlocks.colon ih

theorem pyNatStr_all_digit (n : Nat) : ∀ c ∈ pyNatStr n, c.isDigit = true := by
  intro c hc
  unfold pyNatStr at hc
  by_cases h : n = 0
  · rw [if_pos h] at hc
    simp at hc
    subst hc; decide
  · rw [if_neg h] at hc
    rw [List.mem_reverse, List.mem_map] at hc
    obtain ⟨d, hd, hdc⟩ := hc
    have hlt : d < 10 := Nat.digits_lt_base (by norm_num) hd
    have hall : ∀ m, m < 10 → (Nat.digitChar m).isDigit = true := by decide
    rw [← hdc]
    exact hall d hlt

theorem padZeros_all_digit (w n : Nat) :
    ∀ c ∈ padZeros w (pyNatStr n), c.isDigit = true := by
  intro c hc
  unfold padZeros at hc
  rcases List.mem_append.mp hc with h | h
  · rw [List.eq_of_mem_replicate h]; decide
  · exact pyNatStr_all_digit n c h

theorem dateChars_digit_dash (d : PyDatetime) :
    ∀ c ∈ dateChars d, c.isDigit = true ∨ c = '-' := by
  intro c hc
  unfold dateChars pad4 pad2 at hc
  simp only [List.append_assoc, List.mem_append, List.mem_singleton] at hc
  rcases hc with h | h | h | h | h
  · exact Or.inl (padZeros_all_digit 4 d.year c h)
  · exact Or.inr h
  · exact Or.inl (padZeros_all_digit 2 d.month c h)
  · exact Or.inr h
  · exact Or.inl (padZeros_all_digit 2 d.day c h)

theorem timeChars_digit_colon (d : PyDatetime) :
    ∀ c ∈ timeChars d, c.isDigit = true ∨ c = ':' := by
  intro c hc
  unfold timeChars pad2 at hc
  simp only [List.append_assoc, List.mem_append, List.mem_singleton] at hc
  rcases hc with h | h | h | h | h
  · exact Or.inl (padZeros_all_digit 2 d.hour c h)
  · exact Or.inr h
  · exact Or.inl (padZeros_all_digit 2 d.minute c h)
  · exact Or.inr h
  · exact Or.inl (padZeros_all_digit 2 d.second c h)

-- Shape of the encoded timestamp just before the replacement step: the
-- encoded date, one "%20" triple, the encoded time, and the appended Z.
theorem quoted_datetime_shape (d : PyDatetime) :
    (quote (pyDatetimeStr d) ++ "Z").data =
      quoteList (dateChars d) ++
        '%' :: (['2', '0'] ++ (quoteList (timeChars d) ++ ['Z'])) := by
  rw [String.data_append]
  show quoteList (dateChars d ++ [' '] ++ timeChars d) ++ ['Z'] = _
  unfold quoteList
  rw [List.flatMap_append, List.flatMap_append]
  simp [quoteChar_space, List.append_assoc]

/-- Claim C2: a datetime-valued parameter is rendered as its default text
representation, percent-encoded, suffixed with a literal Z, and the
encoded space then turned into T: the emitted segment is exactly
key sep encoded-date T encoded-time Z, and the replacement of "%20" by
"T" happens exactly once on the encoded string. -/
theorem build_query_url_timestamp (base key sep : String) (d : PyDatetime) :
    build_query_url base [(key, QueryValue.timestamp d)] sep =
      pyRstrip base ++ key ++ sep ++
        (quote (dateStr d) ++ "T" ++ quote (timeStr d) ++ "Z") ∧
    pyCountStr "%20" (quote (pyDatetimeStr d) ++ "Z") = 1 := by
  have hpct : ∀ c ∈ quoteList (dateChars d), c ≠ '%' := by
    rw [quoteList_id (dateChars_digit_dash d)]
    exact no_pct_of_digit_dash (dateChars_digit_dash d)
  have hsafe : SafeBlocks (quoteList (timeChars d) ++ ['Z']) :=
    safeBlocks_append_Z (safeBlocks_quote (timeChars_digit_colon d))
  constructor
  · have hval : pyStrReplace (quote (pyDatetimeStr d) ++ "Z") "%20" "T" =
        ⟨quoteList (dateChars d) ++ 'T' :: (quoteList (timeChars d) ++ ['Z'])⟩ := by
      have hd0 : pyStrReplace (quote (pyDatetimeStr d) ++ "Z") "%20" "T" =
          ⟨pyReplaceAux '%' ['2', '0'] ['T'] (quote (pyDatetimeStr d) ++ "Z").data⟩ := rfl
      rw [hd0, quoted_datetime_shape d, pyReplaceAux_first ['2', '0'] ['T'] hpct,
          pyReplaceAux_safe ['T'] hsafe]
      exact congrArg String.mk (by simp)
    apply strData_inj
    show (pyRstrip base ++ ("" ++ key ++ sep ++
        pyStrReplace (quote (pyDatetimeStr d) ++ "Z") "%20" "T")).data = _
    rw [hval]
    simp [String.data_append, List.append_assoc]
    rfl
  · have hc0 : pyCountStr "%20" (quote (pyDatetimeStr d) ++ "Z") =
        pyCountAux '%' ['2', '0'] (quote (pyDatetimeStr d) ++ "Z").data := rfl
    rw [hc0, quoted_datetime_shape d, pyCountAux_first ['2', '0'] hpct,
        pyCountAux_safe hsafe]
